import Mathlib

/-!
Shallow embedding of `src/lib.rs` of the stripe-webhooks crate.

Rust strings (`&str`, `String`) are modelled as `List Char`; byte slices
(`&[u8]`, `Vec<u8>`) as `List Nat` with every element `< 256`.  External
library functions used by the crate (`hex`, `hmac`/`sha2`, `subtle`,
`http::HeaderMap`, `serde_json`) are modelled faithfully below, following
their documented and well-known behaviour.
-/

set_option maxRecDepth 40000

namespace Stripe

/-- Splits a character list at every occurrence of `sep`, modelling Rust's
`str::split(sep)` (which yields one empty piece for the empty string and
keeps empty pieces between adjacent separators). -/
def splitOnChar (sep : Char) : List Char → List (List Char)
  | [] => [[]]
  | c :: cs =>
    if c = sep then [] :: splitOnChar sep cs
    else
      match splitOnChar sep cs with
      | [] => [[c]]
      | s :: ss => (c :: s) :: ss

/-- Splits a character list at the first `=`, modelling the two-element
result of Rust's `str::splitn(2, '=')`: `none` when the list has no `=`;
otherwise the part before the first `=` and everything after it. -/
def splitFirstEq : List Char → Option (List Char × List Char)
  | [] => none
  | c :: cs =>
    if c = '=' then some ([], cs)
    else
      match splitFirstEq cs with
      | some (k, v) => some (c :: k, v)
      | none => none

/-- One step of the fold in `StripeListener::parse_signature`: given the
accumulated `(ts, sig)` options and one comma-separated part, update them.
The source overwrites `ts` on every `t=` pair but keeps only the first
`v1=` pair (`if sig.is_none()`). -/
def parseSigStep (acc : Option (List Char) × Option (List Char)) (part : List Char) :
    Option (List Char) × Option (List Char) :=
  match splitFirstEq part with
  | some (k, v) =>
    if k = ['t'] then (some v, acc.2)
    else if k = ['v', '1'] ∧ acc.2 = none then (acc.1, some v)
    else acc
  | none => acc

/-- `StripeListener::parse_signature`: split the header on `,`, each part on
the first `=`; collect a timestamp from `t=` pairs and a signature from the
first `v1=` pair; return both, or `none` when either is missing. -/
def parse_signature (header : List Char) : Option (List Char × List Char) :=
  match (splitOnChar ',' header).foldl parseSigStep (none, none) with
  | (some t, some s) => some (t, s)
  | _ => none

/-- Value of one hexadecimal digit, case-insensitive (as accepted by
`hex::decode`); `none` for a non-hex character. -/
def hexVal (c : Char) : Option Nat :=
  if '0' ≤ c ∧ c ≤ '9' then some (c.toNat - 48)
  else if 'a' ≤ c ∧ c ≤ 'f' then some (c.toNat - 87)
  else if 'A' ≤ c ∧ c ≤ 'F' then some (c.toNat - 55)
  else none

/-- `hex::decode`: decodes a hex string into bytes; fails on odd length or
on any non-hexadecimal character. -/
def hexDecode : List Char → Option (List Nat)
  | [] => some []
  | [_] => none
  | c1 :: c2 :: rest =>
    match hexVal c1, hexVal c2, hexDecode rest with
    | some h, some l, some bs => some ((16 * h + l) :: bs)
    | _, _, _ => none

/-- The lowercase hexadecimal digit of a value `< 16` (as produced by
`hex::encode`). -/
def hexDigitChar : Nat → Char
  | 0 => '0' | 1 => '1' | 2 => '2' | 3 => '3' | 4 => '4'
  | 5 => '5' | 6 => '6' | 7 => '7' | 8 => '8' | 9 => '9'
  | 10 => 'a' | 11 => 'b' | 12 => 'c' | 13 => 'd' | 14 => 'e' | 15 => 'f'
  | _ => '0'

/-- `hex::encode`: lowercase hex encoding of a byte list. -/
def hexEncode (bs : List Nat) : List Char :=
  bs.flatMap (fun b => [hexDigitChar (b / 16), hexDigitChar (b % 16)])

/-- UTF-8 encoding of one character, modelling how Rust's `str::as_bytes`
represents each `char` of the string. -/
def utf8Encode (c : Char) : List Nat :=
  let n := c.toNat
  if n < 128 then [n]
  else if n < 2048 then [192 ||| (n >>> 6), 128 ||| (n &&& 63)]
  else if n < 65536 then
    [224 ||| (n >>> 12), 128 ||| ((n >>> 6) &&& 63), 128 ||| (n &&& 63)]
  else
    [240 ||| (n >>> 18), 128 ||| ((n >>> 12) &&& 63),
     128 ||| ((n >>> 6) &&& 63), 128 ||| (n &&& 63)]

/-- Rust `str::as_bytes`: the UTF-8 bytes of a string. -/
def strBytes (s : List Char) : List Nat :=
  s.flatMap utf8Encode

/-! ### SHA-256 and HMAC (the `sha2` and `hmac` crates, per FIPS 180-4 / RFC 2104) -/

/-- `2 ^ 32`, the modulus of SHA-256 word arithmetic. -/
def M32 : Nat := 4294967296

/-- Addition modulo `2 ^ 32`. -/
def add32 (a b : Nat) : Nat := (a + b) % M32

/-- Right rotation of a 32-bit word. -/
def rotr32 (n x : Nat) : Nat := ((x >>> n) ||| (x <<< (32 - n))) % M32

/-- SHA-256 `Ch` function. -/
def shaCh (x y z : Nat) : Nat := (x &&& y) ^^^ (((M32 - 1) ^^^ x) &&& z)

/-- SHA-256 `Maj` function. -/
def shaMaj (x y z : Nat) : Nat := (x &&& y) ^^^ (x &&& z) ^^^ (y &&& z)

/-- SHA-256 big sigma 0. -/
def bSig0 (x : Nat) : Nat := rotr32 2 x ^^^ rotr32 13 x ^^^ rotr32 22 x

/-- SHA-256 big sigma 1. -/
def bSig1 (x : Nat) : Nat := rotr32 6 x ^^^ rotr32 11 x ^^^ rotr32 25 x

/-- SHA-256 small sigma 0. -/
def sSig0 (x : Nat) : Nat := rotr32 7 x ^^^ rotr32 18 x ^^^ (x >>> 3)

/-- SHA-256 small sigma 1. -/
def sSig1 (x : Nat) : Nat := rotr32 17 x ^^^ rotr32 19 x ^^^ (x >>> 10)

/-- The 64 SHA-256 round constants (FIPS 180-4, written in decimal). -/
def shaK : List Nat :=
  [1116352408, 1899447441, 3049323471, 3921009573, 961987163,
   1508970993, 2453635748, 2870763221, 3624381080, 310598401,
   607225278, 1426881987, 1925078388, 2162078206, 2614888103,
   3248222580, 3835390401, 4022224774, 264347078, 604807628,
   770255983, 1249150122, 1555081692, 1996064986, 2554220882,
   2821834349, 2952996808, 3210313671, 3336571891, 3584528711,
   113926993, 338241895, 666307205, 773529912, 1294757372,
   1396182291, 1695183700, 1986661051, 2177026350, 2456956037,
   2730485921, 2820302411, 3259730800, 3345764771, 3516065817,
   3600352804, 4094571909, 275423344, 430227734, 506948616,
   659060556, 883997877, 958139571, 1322822218, 1537002063,
   1747873779, 1955562222, 2024104815, 2227730452, 2361852424,
   2428436474, 2756734187, 3204031479, 3329325298]

/-- The eight words of a SHA-256 hash state. -/
structure ShaState where
  a : Nat
  b : Nat
  c : Nat
  d : Nat
  e : Nat
  f : Nat
  g : Nat
  h : Nat

/-- The SHA-256 initial hash value. -/
def shaInit : ShaState :=
  ⟨1779033703, 3144134277, 1013904242, 2773480762,
   1359893119, 2600822924, 528734635, 1541459225⟩

/-- Big-endian 4-byte representation of a 32-bit word. -/
def be32 (n : Nat) : List Nat :=
  [(n >>> 24) % 256, (n >>> 16) % 256, (n >>> 8) % 256, n % 256]

/-- Big-endian 8-byte representation of a 64-bit length. -/
def be64 (n : Nat) : List Nat :=
  [(n >>> 56) % 256, (n >>> 48) % 256, (n >>> 40) % 256, (n >>> 32) % 256,
   (n >>> 24) % 256, (n >>> 16) % 256, (n >>> 8) % 256, n % 256]

/-- SHA-256 message padding: append `0x80`, zeros up to 56 mod 64, and the
big-endian 64-bit bit length. -/
def shaPad (msg : List Nat) : List Nat :=
  msg ++ 128 :: List.replicate ((119 - msg.length % 64) % 64) 0
      ++ be64 (msg.length * 8)

/-- Groups a byte list into big-endian 32-bit words. -/
def bytesToWords : List Nat → List Nat
  | b0 :: b1 :: b2 :: b3 :: rest =>
    ((b0 <<< 24) ||| (b1 <<< 16) ||| (b2 <<< 8) ||| b3) :: bytesToWords rest
  | _ => []

/-- Splits a byte list into 64-byte blocks (fuel-based recursion; the fuel
`l.length` suffices because every step consumes at least one byte). -/
def chunks64Aux : Nat → List Nat → List (List Nat)
  | 0, _ => []
  | _, [] => []
  | fuel + 1, l => l.take 64 :: chunks64Aux fuel (l.drop 64)

/-- Splits a byte list into 64-byte blocks. -/
def chunks64 (l : List Nat) : List (List Nat) :=
  chunks64Aux l.length l

/-- Extends the 16 message words of a block to the 64-entry SHA-256 message
schedule. -/
def shaSchedule (w16 : List Nat) : List Nat :=
  ((List.range 48).foldl
    (fun w i =>
      w.push (add32 (add32 (sSig1 (w.getD (i + 14) 0)) (w.getD (i + 9) 0))
                    (add32 (sSig0 (w.getD (i + 1) 0)) (w.getD i 0))))
    (Array.mk w16)).toList

/-- One SHA-256 round. -/
def shaRound (s : ShaState) (kw : Nat × Nat) : ShaState :=
  let t1 := add32 s.h (add32 (bSig1 s.e) (add32 (shaCh s.e s.f s.g)
              (add32 kw.1 kw.2)))
  let t2 := add32 (bSig0 s.a) (shaMaj s.a s.b s.c)
  ⟨add32 t1 t2, s.a, s.b, s.c, add32 s.d t1, s.e, s.f, s.g⟩

/-- SHA-256 compression of one 64-byte block into the running state. -/
def shaCompress (st : ShaState) (block : List Nat) : ShaState :=
  let w := shaSchedule (bytesToWords block)
  let f := (shaK.zip w).foldl shaRound st
  ⟨add32 st.a f.a, add32 st.b f.b, add32 st.c f.c, add32 st.d f.d,
   add32 st.e f.e, add32 st.f f.f, add32 st.g f.g, add32 st.h f.h⟩

/-- The 32 output bytes of a final SHA-256 state. -/
def digestBytes (st : ShaState) : List Nat :=
  be32 st.a ++ be32 st.b ++ be32 st.c ++ be32 st.d ++
  be32 st.e ++ be32 st.f ++ be32 st.g ++ be32 st.h

/-- SHA-256 of a byte list. -/
def sha256 (msg : List Nat) : List Nat :=
  digestBytes ((chunks64 (shaPad msg)).foldl shaCompress shaInit)

/-- HMAC-SHA256 (RFC 2104): keys longer than the 64-byte block are hashed,
then zero-padded; inner pad `0x36`, outer pad `0x5c`.  This is
`Hmac<Sha256>` of the `hmac` crate; its `new_from_slice` accepts keys of any
length and never fails. -/
def hmacSha256 (key msg : List Nat) : List Nat :=
  let k0 := if 64 < key.length then sha256 key else key
  let kpad := k0 ++ List.replicate (64 - k0.length) 0
  sha256 ((kpad.map (fun b => b ^^^ 92)) ++
          sha256 ((kpad.map (fun b => b ^^^ 54)) ++ msg))

/-! ### Constant-time comparison (the `subtle` crate) -/

/-- The accumulator loop of `subtle`'s `ConstantTimeEq` on byte slices,
instrumented with a step count.  Every byte pair is visited and folded into
a running difference word — there is no early exit by construction.  Returns
the accumulated difference (zero iff all pairs are equal) and the number of
byte operations performed. -/
def ctAccum : List (Nat × Nat) → Nat × Nat
  | [] => (0, 0)
  | (a, b) :: rest =>
    let r := ctAccum rest
    (r.1 ||| (a ^^^ b), r.2 + 1)

/-- `subtle`'s `[u8]::ct_eq(..).unwrap_u8() == 1`: equal length and a zero
accumulated difference over all byte pairs. -/
def ctEq (xs ys : List Nat) : Bool :=
  xs.length == ys.length && (ctAccum (xs.zip ys)).1 == 0

/-- The number of byte operations `ctEq` performs: a timing model of the
comparison loop. -/
def ctEqCost (xs ys : List Nat) : Nat :=
  (ctAccum (xs.zip ys)).2

/-! ### The `StripeListener` verification core -/

/-- `StripeListener::verify_signature`: parse the header; build the signed
payload `"{timestamp}.{payload}"`; HMAC it under the secret (key
initialization in the source has an error branch, but `Hmac`'s
`new_from_slice` accepts any key length, so the model cannot fail there);
hex-decode the header signature; compare lengths, then compare in constant
time. -/
def verify_signature (secret header payload : List Char) : Bool :=
  match parse_signature header with
  | none => false
  | some (timestamp, signature_hex) =>
    let signed_payload := timestamp ++ '.' :: payload
    let expected := hmacSha256 (strBytes secret) (strBytes signed_payload)
    match hexDecode signature_hex with
    | none => false
    | some sig_bytes =>
      if expected.length ≠ sig_bytes.length then false
      else ctEq expected sig_bytes

/-! ### JSON values and parsing (the `serde_json` crate) -/

/-- A JSON document (`serde_json::Value`); numbers keep their source
lexeme, which this crate never interprets. -/
inductive Json where
  | null
  | bool (b : Bool)
  | num (lexeme : List Char)
  | str (s : List Char)
  | arr (elems : List Json)
  | obj (members : List (List Char × Json))

/-- The `{` character (code 123). -/
def lcurly : Char := Char.ofNat 123

/-- The `}` character (code 125). -/
def rcurly : Char := Char.ofNat 125

/-- JSON insignificant whitespace. -/
def isWsChar (c : Char) : Bool :=
  c = ' ' || c = '\t' || c = '\n' || c = '\r'

/-- Drops leading JSON whitespace. -/
def skipWs : List Char → List Char
  | [] => []
  | c :: cs => if isWsChar c then skipWs cs else c :: cs

/-- The character denoted by a single-character JSON escape. -/
def escChar (e : Char) : Option Char :=
  if e = '"' then some '"'
  else if e = '\\' then some '\\'
  else if e = '/' then some '/'
  else if e = 'b' then some (Char.ofNat 8)
  else if e = 'f' then some (Char.ofNat 12)
  else if e = 'n' then some '\n'
  else if e = 'r' then some '\r'
  else if e = 't' then some '\t'
  else none

/-- Parses the body of a JSON string after its opening quote, returning the
decoded content and the input after the closing quote.  Raw control
characters are rejected; `\uXXXX` escapes decode to the character with that
code (unpaired surrogates, which `serde_json` rejects, are approximated by
the replacement behaviour of `Char.ofNat` — no claim depends on them). -/
def parseJString : List Char → Option (List Char × List Char)
  | [] => none
  | c :: cs =>
    if c = '"' then some ([], cs)
    else if c = '\\' then
      match cs with
      | [] => none
      | e :: cs' =>
        if e = 'u' then
          match cs' with
          | h1 :: h2 :: h3 :: h4 :: cs'' =>
            match hexVal h1, hexVal h2, hexVal h3, hexVal h4, parseJString cs'' with
            | some a, some b, some c2, some d, some (s, r) =>
              some (Char.ofNat (((a * 16 + b) * 16 + c2) * 16 + d) :: s, r)
            | _, _, _, _, _ => none
          | _ => none
        else
          match escChar e, parseJString cs' with
          | some ch, some (s, r) => some (ch :: s, r)
          | _, _ => none
    else if c.toNat < 32 then none
    else
      match parseJString cs with
      | some (s, r) => some (c :: s, r)
      | none => none

/-- Takes the longest prefix of decimal digits. -/
def takeDigits : List Char → List Char × List Char
  | [] => ([], [])
  | c :: cs =>
    if c.isDigit then
      let (d, r) := takeDigits cs
      (c :: d, r)
    else ([], c :: cs)

/-- Parses a JSON number (RFC 8259 grammar: optional minus, `0` or a
nonzero-led digit run, optional fraction, optional exponent), returning its
lexeme and the rest of the input. -/
def parseNumber (l : List Char) : Option (List Char × List Char) :=
  let (sign, l1) :=
    match l with
    | c :: cs => if c = '-' then ([c], cs) else (([] : List Char), c :: cs)
    | [] => ([], [])
  let intPart? : Option (List Char × List Char) :=
    match l1 with
    | c :: cs =>
      if c = '0' then some ([c], cs)
      else if c.isDigit then
        let (d, r) := takeDigits cs
        some (c :: d, r)
      else none
    | [] => none
  match intPart? with
  | none => none
  | some (ip, l2) =>
    let frac? : Option (List Char × List Char) :=
      match l2 with
      | c :: cs =>
        if c = '.' then
          match takeDigits cs with
          | ([], _) => none
          | (ds, r) => some (c :: ds, r)
        else some ([], c :: cs)
      | [] => some ([], [])
    match frac? with
    | none => none
    | some (fp, l3) =>
      let exp? : Option (List Char × List Char) :=
        match l3 with
        | c :: cs =>
          if c = 'e' || c = 'E' then
            let (sgn, cs2) :=
              match cs with
              | s :: ss => if s = '+' || s = '-' then ([s], ss) else (([] : List Char), s :: ss)
              | [] => ([], [])
            match takeDigits cs2 with
            | ([], _) => none
            | (ds, r) => some (c :: (sgn ++ ds), r)
          else some ([], c :: cs)
        | [] => some ([], [])
      match exp? with
      | none => none
      | some (ep, l4) => some (sign ++ ip ++ fp ++ ep, l4)

/-- The grammatical role the fuel-indexed JSON parser is currently in. -/
inductive PMode where
  | value
  | arrElems
  | objMembers

/-- Recursive-descent JSON parser, structurally recursive on a fuel bound.
`value` parses one JSON value; `arrElems` parses the remaining elements of a
non-empty array (returning them wrapped in `Json.arr`); `objMembers` parses
the remaining members of a non-empty object (wrapped in `Json.obj`). -/
def parseJ : Nat → PMode → List Char → Option (Json × List Char)
  | 0, _, _ => none
  | fuel + 1, .value, l =>
    match skipWs l with
    | [] => none
    | c :: cs =>
      if c = '"' then
        match parseJString cs with
        | some (s, r) => some (.str s, r)
        | none => none
      else if c = lcurly then
        match skipWs cs with
        | c2 :: r => if c2 = rcurly then some (.obj [], r) else parseJ fuel .objMembers (c2 :: r)
        | [] => none
      else if c = '[' then
        match skipWs cs with
        | c2 :: r => if c2 = ']' then some (.arr [], r) else parseJ fuel .arrElems (c2 :: r)
        | [] => none
      else if c = 't' then
        match cs with
        | 'r' :: 'u' :: 'e' :: r => some (.bool true, r)
        | _ => none
      else if c = 'f' then
        match cs with
        | 'a' :: 'l' :: 's' :: 'e' :: r => some (.bool false, r)
        | _ => none
      else if c = 'n' then
        match cs with
        | 'u' :: 'l' :: 'l' :: r => some (.null, r)
        | _ => none
      else if c = '-' || c.isDigit then
        match parseNumber (c :: cs) with
        | some (lex, r) => some (.num lex, r)
        | none => none
      else none
  | fuel + 1, .arrElems, l =>
    match parseJ fuel .value l with
    | some (v, r) =>
      (match skipWs r with
       | ',' :: r2 =>
         match parseJ fuel .arrElems r2 with
         | some (.arr vs, rr) => some (.arr (v :: vs), rr)
         | _ => none
       | ']' :: r2 => some (.arr [v], r2)
       | _ => none)
    | none => none
  | fuel + 1, .objMembers, l =>
    match skipWs l with
    | [] => none
    | q :: r0 =>
      if q = '"' then
        match parseJString r0 with
        | some (k, r1) =>
          (match skipWs r1 with
           | ':' :: r2 =>
             match parseJ fuel .value r2 with
             | some (v, r3) =>
               (match skipWs r3 with
                | ',' :: r4 =>
                  match parseJ fuel .objMembers r4 with
                  | some (.obj ms, rr) => some (.obj ((k, v) :: ms), rr)
                  | _ => none
                | c :: r4 => if c = rcurly then some (.obj [(k, v)], r4) else none
                | [] => none)
             | none => none
           | _ => none)
        | none => none
      else none

/-- Parses a complete JSON document: one value, then only trailing
whitespace. -/
def jsonParse (s : List Char) : Option Json :=
  match parseJ (2 * s.length + 2) .value s with
  | some (v, rest) => if skipWs rest = [] then some v else none
  | none => none

/-! ### The typed event request (serde-derived deserialization) -/

/-- `StripeEventData`: the `data` member, exposing the opaque `object`
document. -/
structure StripeEventData where
  object : Json

/-- `StripeEventRequest`: the deserialized body with `id`, `type` and
`data`. -/
structure StripeEventRequest where
  id : List Char
  type : List Char
  data : StripeEventData

/-- Serde-style field lookup in a JSON object: the value of the field when
it occurs exactly once (a missing or duplicate field is a deserialization
error). -/
def getField (ms : List (List Char × Json)) (k : List Char) : Option Json :=
  match ms.filter (fun m => m.1 = k) with
  | [m] => some m.2
  | _ => none

/-- `serde_json::from_str::<StripeEventRequest>`: the body must be a JSON
object with string fields `id` and `type` and an object field `data`
containing `object`; unknown fields are ignored. -/
def from_str (payload : List Char) : Option StripeEventRequest :=
  match jsonParse payload with
  | some (.obj ms) =>
    match getField ms "id".data, getField ms "type".data, getField ms "data".data with
    | some (.str i), some (.str t), some (.obj dms) =>
      match getField dms "object".data with
      | some ob => some ⟨i, t, ⟨ob⟩⟩
      | none => none
    | _, _, _ => none
  | _ => none

/-! ### Headers (the `http` crate) and the dispatcher -/

/-- `http::HeaderMap`: name/value pairs; values are raw bytes. -/
abbrev Headers := List (List Char × List Nat)

/-- ASCII lowercasing of a header name (`HeaderMap` lookup is
case-insensitive). -/
def lowerAscii (s : List Char) : List Char := s.map Char.toLower

/-- `HeaderMap::get`: the first value stored under the (case-insensitively
matched) name. -/
def headerGet (hs : Headers) (name : List Char) : Option (List Nat) :=
  match hs.find? (fun e => lowerAscii e.1 = lowerAscii name) with
  | some e => some e.2
  | none => none

/-- `HeaderValue::to_str` succeeds only on visible ASCII bytes (32–126)
plus horizontal tab. -/
def isVisibleAscii (b : Nat) : Bool := (32 ≤ b && b < 127) || b == 9

/-- `HeaderValue::to_str`: the bytes as characters, or `none` when any byte
is outside visible ASCII. -/
def headerToStr (bs : List Nat) : Option (List Char) :=
  if bs.all isVisibleAscii then some (bs.map Char.ofNat) else none

/-- `StripeListener::verify`: look up the `Stripe-Signature` header and
convert it to a string, propagating `None` (the `?` operator) when absent
or not visible ASCII; otherwise run `verify_signature`. -/
def verify (secret : List Char) (headers : Headers) (payload : List Char) :
    Option Bool :=
  match headerGet headers "Stripe-Signature".data with
  | none => none
  | some v =>
    match headerToStr v with
    | none => none
    | some s => some (verify_signature secret s payload)

/-- The two error kinds `process` produces (`anyhow` messages
`"signature verification failed"` and `"failed to parse Stripe event: …"`
in the source). -/
inductive ProcessError where
  | authFailed
  | parseFailed
deriving DecidableEq

/-- `StripeEvent`: the classified outcome. -/
inductive StripeEvent where
  | CheckoutSessionCompleted (v : Json)
  | CustomerSubscriptionDeleted (v : Json)
  | Unknown (v : Json)

/-- Rust's `Option::is_none_or`: `true` on `None`, else the predicate. -/
def isNoneOr (p : α → Bool) : Option α → Bool
  | none => true
  | some x => p x

/-- `StripeListener::process`: reject when
`!verify(..).is_none_or(|x| x)`; then deserialize the body and classify by
exact match on the `type` field. -/
def process (secret : List Char) (headers : Headers) (payload : List Char) :
    Except ProcessError StripeEvent :=
  if !(isNoneOr (fun x => x) (verify secret headers payload)) then
    .error .authFailed
  else
    match from_str payload with
    | none => .error .parseFailed
    | some event =>
      if event.type = "checkout.session.completed".data then
        .ok (.CheckoutSessionCompleted event.data.object)
      else if event.type = "customer.subscription.deleted".data then
        .ok (.CustomerSubscriptionDeleted event.data.object)
      else
        .ok (.Unknown event.data.object)

/-! ### Helper lemmas -/

theorem splitOnChar_nil (sep : Char) : splitOnChar sep [] = [[]] := rfl

theorem splitOnChar_cons (sep c : Char) (cs : List Char) :
    splitOnChar sep (c :: cs) =
      if c = sep then [] :: splitOnChar sep cs
      else
        match splitOnChar sep cs with
        | [] => [[c]]
        | s :: ss => (c :: s) :: ss := rfl

theorem splitOnChar_ne_nil (sep : Char) (l : List Char) : splitOnChar sep l ≠ [] := by
  cases l with
  | nil => simp [splitOnChar]
  | cons c cs =>
    simp only [splitOnChar]
    split
    · simp
    · cases h : splitOnChar sep cs <;> simp

theorem splitOnChar_no_sep (sep : Char) (l : List Char) (h : sep ∉ l) :
    splitOnChar sep l = [l] := by
  induction l with
  | nil => rfl
  | cons c cs ih =>
    have hc : c ≠ sep := fun hh => h (hh ▸ List.mem_cons_self c cs)
    have hcs : sep ∉ cs := fun hh => h (List.mem_cons_of_mem c hh)
    rw [splitOnChar_cons, if_neg hc, ih hcs]

theorem splitOnChar_append (sep : Char) (a b : List Char) (h : sep ∉ a) :
    splitOnChar sep (a ++ sep :: b) = a :: splitOnChar sep b := by
  induction a with
  | nil => rw [List.nil_append, splitOnChar_cons, if_pos rfl]
  | cons c cs ih =>
    have hc : c ≠ sep := fun hh => h (hh ▸ List.mem_cons_self c cs)
    have hcs : sep ∉ cs := fun hh => h (List.mem_cons_of_mem c hh)
    rw [List.cons_append, splitOnChar_cons, if_neg hc, ih hcs]

theorem parseSigStep_t (acc : Option (List Char) × Option (List Char)) (v : List Char) :
    parseSigStep acc ('t' :: '=' :: v) = (some v, acc.2) := by
  simp [parseSigStep, splitFirstEq]

theorem parseSigStep_v1_none (t? : Option (List Char)) (v : List Char) :
    parseSigStep (t?, none) ('v' :: '1' :: '=' :: v) = (t?, some v) := by
  simp [parseSigStep, splitFirstEq]

theorem parseSigStep_v1_some (t? : Option (List Char)) (s v : List Char) :
    parseSigStep (t?, some s) ('v' :: '1' :: '=' :: v) = (t?, some s) := by
  simp [parseSigStep, splitFirstEq]

/-- A comma does not occur in a `t=…` segment whose value avoids it. -/
theorem comma_not_mem_t (t : List Char) (ht : ',' ∉ t) : ',' ∉ 't' :: '=' :: t := by
  intro hh
  simp only [List.mem_cons] at hh
  rcases hh with hh | hh | hh
  · exact absurd hh (by decide)
  · exact absurd hh (by decide)
  · exact ht hh

/-- A comma does not occur in a `v1=…` segment whose value avoids it. -/
theorem comma_not_mem_v1 (v : List Char) (hv : ',' ∉ v) :
    ',' ∉ 'v' :: '1' :: '=' :: v := by
  intro hh
  simp only [List.mem_cons] at hh
  rcases hh with hh | hh | hh | hh
  · exact absurd hh (by decide)
  · exact absurd hh (by decide)
  · exact absurd hh (by decide)
  · exact hv hh

/-- `parse_signature` on a well-formed two-pair header `t=…,v1=…`. -/
theorem parse_signature_t_v1 (t v : List Char) (ht : ',' ∉ t) (hv : ',' ∉ v) :
    parse_signature ("t=".data ++ t ++ (",v1=".data ++ v)) = some (t, v) := by
  have hshape : "t=".data ++ t ++ (",v1=".data ++ v) =
      ('t' :: '=' :: t) ++ ',' :: ('v' :: '1' :: '=' :: v) := by simp
  unfold parse_signature
  rw [hshape, splitOnChar_append ',' _ _ (comma_not_mem_t t ht),
      splitOnChar_no_sep ',' _ (comma_not_mem_v1 v hv)]
  simp [List.foldl, parseSigStep_t, parseSigStep_v1_none]

/-- `parse_signature` on a header with two `t=` pairs: the later pair
overwrites the earlier one. -/
theorem parse_signature_t_t_v1 (t1 t2 v : List Char)
    (ht1 : ',' ∉ t1) (ht2 : ',' ∉ t2) (hv : ',' ∉ v) :
    parse_signature ("t=".data ++ t1 ++ (",t=".data ++ t2 ++ (",v1=".data ++ v))) =
      some (t2, v) := by
  have hshape : "t=".data ++ t1 ++ (",t=".data ++ t2 ++ (",v1=".data ++ v)) =
      ('t' :: '=' :: t1) ++ ',' ::
        (('t' :: '=' :: t2) ++ ',' :: ('v' :: '1' :: '=' :: v)) := by simp
  unfold parse_signature
  rw [hshape, splitOnChar_append ',' _ _ (comma_not_mem_t t1 ht1),
      splitOnChar_append ',' _ _ (comma_not_mem_t t2 ht2),
      splitOnChar_no_sep ',' _ (comma_not_mem_v1 v hv)]
  simp [List.foldl, parseSigStep_t, parseSigStep_v1_none]

/-- `parse_signature` on a header with two `v1=` pairs: the earlier pair is
kept. -/
theorem parse_signature_t_v1_v1 (t v1 v2 : List Char)
    (ht : ',' ∉ t) (hv1 : ',' ∉ v1) (hv2 : ',' ∉ v2) :
    parse_signature ("t=".data ++ t ++ (",v1=".data ++ v1 ++ (",v1=".data ++ v2))) =
      some (t, v1) := by
  have hshape : "t=".data ++ t ++ (",v1=".data ++ v1 ++ (",v1=".data ++ v2)) =
      ('t' :: '=' :: t) ++ ',' ::
        (('v' :: '1' :: '=' :: v1) ++ ',' :: ('v' :: '1' :: '=' :: v2)) := by simp
  unfold parse_signature
  rw [hshape, splitOnChar_append ',' _ _ (comma_not_mem_t t ht),
      splitOnChar_append ',' _ _ (comma_not_mem_v1 v1 hv1),
      splitOnChar_no_sep ',' _ (comma_not_mem_v1 v2 hv2)]
  simp [List.foldl, parseSigStep_t, parseSigStep_v1_none, parseSigStep_v1_some]

theorem hexVal_hexDigitChar (n : Nat) (h : n < 16) :
    hexVal (hexDigitChar n) = some n := by
  interval_cases n <;> decide

theorem hexDigitChar_ne_comma (n : Nat) : hexDigitChar n ≠ ',' := by
  match n with
  | 0 | 1 | 2 | 3 | 4 | 5 | 6 | 7 | 8 | 9 | 10 | 11 | 12 | 13 | 14 | 15 => decide
  | m + 16 =>
    have : hexDigitChar (m + 16) = '0' := rfl
    rw [this]
    decide

theorem comma_not_mem_hexEncode (bs : List Nat) : ',' ∉ hexEncode bs := by
  intro hh
  induction bs with
  | nil => simp [hexEncode] at hh
  | cons b rest ih =>
    simp only [hexEncode, List.flatMap_cons, List.mem_append, List.mem_cons,
      List.not_mem_nil, or_false] at hh
    rcases hh with hh | hh
    · rcases hh with hh | hh
      · exact hexDigitChar_ne_comma (b / 16) hh.symm
      · exact hexDigitChar_ne_comma (b % 16) hh.symm
    · exact ih hh

theorem hexDecode_hexEncode (bs : List Nat) (h : ∀ b ∈ bs, b < 256) :
    hexDecode (hexEncode bs) = some bs := by
  induction bs with
  | nil => rfl
  | cons b rest ih =>
    have hb : b < 256 := h b (List.mem_cons_self b rest)
    have hrest : ∀ x ∈ rest, x < 256 := fun x hx => h x (List.mem_cons_of_mem b hx)
    have hdiv : b / 16 < 16 := by omega
    have hmod : b % 16 < 16 := by omega
    simp only [hexEncode, List.flatMap_cons, List.cons_append, List.nil_append]
    show hexDecode (hexDigitChar (b / 16) :: hexDigitChar (b % 16) :: hexEncode rest)
      = some (b :: rest)
    rw [hexDecode, hexVal_hexDigitChar _ hdiv, hexVal_hexDigitChar _ hmod]
    rw [show hexEncode rest = rest.flatMap (fun x => [hexDigitChar (x / 16), hexDigitChar (x % 16)]) from rfl] at ih ⊢
    rw [ih hrest]
    show some ((16 * (b / 16) + b % 16) :: rest) = some (b :: rest)
    have hbb : 16 * (b / 16) + b % 16 = b := by omega
    rw [hbb]

theorem digestBytes_length (st : ShaState) : (digestBytes st).length = 32 := by
  simp [digestBytes, be32]

theorem sha256_length (msg : List Nat) : (sha256 msg).length = 32 := by
  unfold sha256
  exact digestBytes_length _

theorem hmacSha256_length (key msg : List Nat) : (hmacSha256 key msg).length = 32 := by
  unfold hmacSha256
  exact sha256_length _

theorem digestBytes_lt_256 (st : ShaState) : ∀ b ∈ digestBytes st, b < 256 := by
  intro b hb
  simp only [digestBytes, be32, List.mem_append, List.mem_cons,
    List.not_mem_nil, or_false] at hb
  rcases hb with ((h|h|h|h)|(h|h|h|h)|(h|h|h|h)|(h|h|h|h)) |
    ((h|h|h|h)|(h|h|h|h)|(h|h|h|h)|(h|h|h|h)) <;> omega

theorem sha256_lt_256 (msg : List Nat) : ∀ b ∈ sha256 msg, b < 256 := by
  unfold sha256
  exact digestBytes_lt_256 _

theorem hmacSha256_lt_256 (key msg : List Nat) : ∀ b ∈ hmacSha256 key msg, b < 256 := by
  unfold hmacSha256
  exact sha256_lt_256 _

theorem lor_eq_zero_iff (a b : Nat) : a ||| b = 0 ↔ a = 0 ∧ b = 0 := by
  constructor
  · intro h
    constructor
    · refine Nat.eq_of_testBit_eq fun i => ?_
      have hi := congrArg (fun n => Nat.testBit n i) h
      simp only [Nat.testBit_or, Nat.zero_testBit, Bool.or_eq_false_iff] at hi
      simp [hi.1]
    · refine Nat.eq_of_testBit_eq fun i => ?_
      have hi := congrArg (fun n => Nat.testBit n i) h
      simp only [Nat.testBit_or, Nat.zero_testBit, Bool.or_eq_false_iff] at hi
      simp [hi.2]
  · rintro ⟨rfl, rfl⟩
    rfl

theorem ctAccum_fst_eq_zero (ps : List (Nat × Nat)) :
    (ctAccum ps).1 = 0 ↔ ∀ p ∈ ps, p.1 = p.2 := by
  induction ps with
  | nil => simp [ctAccum]
  | cons p rest ih =>
    obtain ⟨a, b⟩ := p
    simp only [ctAccum, List.mem_cons]
    rw [lor_eq_zero_iff, Nat.xor_eq_zero, ih]
    constructor
    · rintro ⟨hall, hab⟩ q hq
      rcases hq with rfl | hq
      · exact hab
      · exact hall q hq
    · intro hall
      exact ⟨fun q hq => hall q (Or.inr hq), hall (a, b) (Or.inl rfl)⟩

theorem ctAccum_snd (ps : List (Nat × Nat)) : (ctAccum ps).2 = ps.length := by
  induction ps with
  | nil => rfl
  | cons p rest ih => simp [ctAccum, ih]

theorem zip_forall_eq_iff (xs ys : List Nat) (h : xs.length = ys.length) :
    (∀ p ∈ xs.zip ys, p.1 = p.2) ↔ xs = ys := by
  induction xs generalizing ys with
  | nil =>
    cases ys with
    | nil => simp
    | cons y u => simp at h
  | cons x t ih =>
    cases ys with
    | nil => simp at h
    | cons y u =>
      have hlen : t.length = u.length := by simpa using h
      constructor
      · intro hall
        have hx : x = y := hall (x, y) (by simp)
        have ht : t = u := (ih u hlen).mp fun p hp => hall p (by simp [hp])
        rw [hx, ht]
      · intro hh p hp
        have hx : x = y ∧ t = u := by simpa using hh
        rcases (by simpa using hp : p = (x, y) ∨ p ∈ t.zip u) with rfl | hp2
        · exact hx.1
        · exact (ih u hlen).mpr hx.2 p hp2

theorem ctEq_eq_true_iff (xs ys : List Nat) (h : xs.length = ys.length) :
    ctEq xs ys = true ↔ xs = ys := by
  unfold ctEq
  rw [Bool.and_eq_true, beq_iff_eq, beq_iff_eq, ctAccum_fst_eq_zero,
      zip_forall_eq_iff xs ys h]
  simp [h]

theorem ctEqCost_eq (xs ys : List Nat) : ctEqCost xs ys = min xs.length ys.length := by
  unfold ctEqCost
  rw [ctAccum_snd, List.length_zip]

/-- No comma occurs in a string of decimal digits. -/
theorem comma_not_mem_of_digits (t : List Char) (h : ∀ c ∈ t, c.isDigit) : ',' ∉ t :=
  fun hh => absurd (h ',' hh) (by decide)

theorem verify_signature_parse_none (secret payload header : List Char)
    (hp : parse_signature header = none) :
    verify_signature secret header payload = false := by
  unfold verify_signature
  rw [hp]

theorem verify_signature_parse_some (secret payload header t s : List Char)
    (hp : parse_signature header = some (t, s)) :
    verify_signature secret header payload =
      (match hexDecode s with
       | none => false
       | some sig_bytes =>
         if (hmacSha256 (strBytes secret) (strBytes (t ++ '.' :: payload))).length
             ≠ sig_bytes.length then false
         else ctEq (hmacSha256 (strBytes secret) (strBytes (t ++ '.' :: payload)))
                sig_bytes) := by
  unfold verify_signature
  rw [hp]

/-- A header whose `v1` pair is exactly the hex of the digest of the signed
payload built from its parsed timestamp verifies successfully. -/
theorem verify_of_parse_correct (secret body header t : List Char)
    (hp : parse_signature header =
      some (t, hexEncode (hmacSha256 (strBytes secret) (strBytes (t ++ '.' :: body))))) :
    verify_signature secret header body = true := by
  rw [verify_signature_parse_some secret body header t _ hp,
      hexDecode_hexEncode _ (hmacSha256_lt_256 _ _)]
  show (if (hmacSha256 (strBytes secret) (strBytes (t ++ '.' :: body))).length
      ≠ (hmacSha256 (strBytes secret) (strBytes (t ++ '.' :: body))).length then false
    else ctEq (hmacSha256 (strBytes secret) (strBytes (t ++ '.' :: body)))
      (hmacSha256 (strBytes secret) (strBytes (t ++ '.' :: body)))) = true
  rw [if_neg (fun hh => hh rfl)]
  exact (ctEq_eq_true_iff _ _ rfl).mpr rfl

/-- When verification comes back `some true` and deserialization yields
`req`, `process` returns the classification of `req`. -/
theorem process_verified (secret : List Char) (headers : Headers) (payload : List Char)
    (req : StripeEventRequest)
    (hv : verify secret headers payload = some true)
    (hp : from_str payload = some req) :
    process secret headers payload =
      (if req.type = "checkout.session.completed".data then
        .ok (.CheckoutSessionCompleted req.data.object)
      else if req.type = "customer.subscription.deleted".data then
        .ok (.CustomerSubscriptionDeleted req.data.object)
      else .ok (.Unknown req.data.object)) := by
  unfold process
  rw [hv, hp]
  rfl

/-! ### The claims -/

/-- C1: the claim says that for every secret, body, and header map without a
`Stripe-Signature` header, `process` returns an authentication error.  The
code does the opposite: `!verify(..).is_none_or(|x| x)` is `false` when
`verify` returns `None`, so a request with no signature header skips
verification entirely and is processed as if authenticated.  This theorem
evaluates the model at such an input: `process` returns `Ok` with a
classified event instead of an error. -/
theorem c1_process_accepts_missing_header :
    process "whsec_x".data ([] : Headers)
      "\x7b\"id\":\"evt_1\",\"type\":\"payment_intent.created\",\"data\":\x7b\"object\":null\x7d\x7d".data
      = .ok (.Unknown .null) := by
  rfl

/-- C2 counterexample: the claim says the first `t=` pair wins.  On the
header `t=1,t=2,v1=…` the parser returns timestamp `2`, not `1`; a
signature over `"2.body"` verifies while a signature over `"1.body"` is
rejected, so the signed payload is built from the last `t=` pair. -/
theorem c2_counterexample :
    parse_signature "t=1,t=2,v1=ab".data = some ("2".data, "ab".data) ∧
    verify_signature "sec".data
      "t=1,t=2,v1=6436d75124ee882b8187a68daf34ad2b0a002c779b818ca0af0624e8e13c7298".data
      "body".data = true ∧
    verify_signature "sec".data
      "t=1,t=2,v1=82c7edb0c65c13f7ee43544b1e3a26f678e5cb12b8fdcf1b613ec2e341c6a494".data
      "body".data = false :=
  ⟨by decide, by decide, by decide⟩

/-- C2 (amended): for every signature header containing multiple `t=`
pairs, the timestamp used to build the signed payload is the value of the
LAST `t=` pair encountered (each `t=` overwrites the previous one); only
`v1=` pairs are first-match-wins.  Stated on a two-`t` header: parsing
returns the second timestamp, and a signature computed over the second
timestamp's signed payload verifies. -/
theorem c2_last_t_wins (secret t1 t2 body : List Char)
    (h1 : ',' ∉ t1) (h2 : ',' ∉ t2) :
    parse_signature ("t=".data ++ t1 ++ (",t=".data ++ t2 ++ (",v1=".data ++
        hexEncode (hmacSha256 (strBytes secret) (strBytes (t2 ++ '.' :: body)))))) =
      some (t2, hexEncode (hmacSha256 (strBytes secret) (strBytes (t2 ++ '.' :: body)))) ∧
    verify_signature secret
      ("t=".data ++ t1 ++ (",t=".data ++ t2 ++ (",v1=".data ++
        hexEncode (hmacSha256 (strBytes secret) (strBytes (t2 ++ '.' :: body))))))
      body = true := by
  have hp := parse_signature_t_t_v1 t1 t2
    (hexEncode (hmacSha256 (strBytes secret) (strBytes (t2 ++ '.' :: body))))
    h1 h2 (comma_not_mem_hexEncode _)
  exact ⟨hp, verify_of_parse_correct secret body _ t2 hp⟩

/-- C2 witness: the amended claim at `t=1,t=2` with concrete secret and
body. -/
theorem c2_witness :
    parse_signature ("t=".data ++ "1".data ++ (",t=".data ++ "2".data ++ (",v1=".data ++
        hexEncode (hmacSha256 (strBytes "k".data) (strBytes ("2".data ++ '.' :: "b".data)))))) =
      some ("2".data,
        hexEncode (hmacSha256 (strBytes "k".data) (strBytes ("2".data ++ '.' :: "b".data)))) ∧
    verify_signature "k".data
      ("t=".data ++ "1".data ++ (",t=".data ++ "2".data ++ (",v1=".data ++
        hexEncode (hmacSha256 (strBytes "k".data) (strBytes ("2".data ++ '.' :: "b".data))))))
      "b".data = true :=
  c2_last_t_wins "k".data "1".data "2".data "b".data (by decide) (by decide)

/-- C3: for every secret, timestamp (a string of decimal digits, per the
header format `t=<unix-seconds-as-string>`), and body, the header
`t=<timestamp>,v1=<hex(HMAC-SHA256(secret, timestamp "." body))>` verifies
as valid against that same secret and body. -/
theorem c3_round_trip (secret timestamp body : List Char)
    (ht : ∀ c ∈ timestamp, c.isDigit) :
    verify_signature secret
      ("t=".data ++ timestamp ++ (",v1=".data ++
        hexEncode (hmacSha256 (strBytes secret) (strBytes (timestamp ++ '.' :: body)))))
      body = true :=
  verify_of_parse_correct secret body _ timestamp
    (parse_signature_t_v1 timestamp _
      (comma_not_mem_of_digits timestamp ht) (comma_not_mem_hexEncode _))

/-- C3 witness: the round trip at secret `k`, timestamp `1`, body `b`. -/
theorem c3_witness :
    verify_signature "k".data
      ("t=".data ++ "1".data ++ (",v1=".data ++
        hexEncode (hmacSha256 (strBytes "k".data) (strBytes ("1".data ++ '.' :: "b".data)))))
      "b".data = true :=
  c3_round_trip "k".data "1".data "b".data (by decide)

/-- C4: for every secret, body, digit timestamp, and comma-free first `v1`
value that does not decode to the expected digest, a header carrying that
wrong value first and the correct hex signature in a second `v1=` pair
fails verification: only the first `v1` value is checked. -/
theorem c4_first_v1_checked (secret body t w : List Char)
    (ht : ∀ c ∈ t, c.isDigit) (hw : ',' ∉ w)
    (hne : hexDecode w ≠
      some (hmacSha256 (strBytes secret) (strBytes (t ++ '.' :: body)))) :
    verify_signature secret
      ("t=".data ++ t ++ (",v1=".data ++ w ++ (",v1=".data ++
        hexEncode (hmacSha256 (strBytes secret) (strBytes (t ++ '.' :: body))))))
      body = false := by
  have hp := parse_signature_t_v1_v1 t w
    (hexEncode (hmacSha256 (strBytes secret) (strBytes (t ++ '.' :: body))))
    (comma_not_mem_of_digits t ht) hw (comma_not_mem_hexEncode _)
  rw [verify_signature_parse_some secret body _ t w hp]
  cases hd : hexDecode w with
  | none => rfl
  | some bs =>
    show (if (hmacSha256 (strBytes secret) (strBytes (t ++ '.' :: body))).length
        ≠ bs.length then false
      else ctEq (hmacSha256 (strBytes secret) (strBytes (t ++ '.' :: body))) bs) = false
    by_cases hb : bs.length = 32
    · rw [if_neg (by rw [hmacSha256_length, hb]; exact fun hh => hh rfl)]
      by_contra hct
      rw [Bool.not_eq_false] at hct
      have heq := (ctEq_eq_true_iff _ bs (by rw [hmacSha256_length, hb])).mp hct
      exact hne (hd.trans (congrArg some heq.symm))
    · rw [if_pos (by rw [hmacSha256_length]; exact fun hh => hb hh.symm)]

/-- C4 witness: first `v1` is `deadbeef`, second `v1` is the correct hex
signature; verification fails. -/
theorem c4_witness :
    verify_signature "sec".data
      ("t=".data ++ "1".data ++ (",v1=".data ++ "deadbeef".data ++ (",v1=".data ++
        hexEncode (hmacSha256 (strBytes "sec".data) (strBytes ("1".data ++ '.' :: "b".data))))))
      "b".data = false :=
  c4_first_v1_checked "sec".data "b".data "1".data "deadbeef".data (by decide) (by decide)
    (by
      intro h
      have h4 : hexDecode "deadbeef".data = some [222, 173, 190, 239] := by decide
      rw [h4] at h
      have hD := hmacSha256_length (strBytes "sec".data)
        (strBytes ("1".data ++ '.' :: "b".data))
      rw [← Option.some.inj h] at hD
      simp at hD)

/-- C5: verification fails whenever the header does not parse (no `t` or no
`v1` pair), whenever the first `v1` value is not valid hex, and whenever
the decoded `v1` bytes differ in length from the 32-byte HMAC-SHA256
digest — regardless of the secret, body, or other signature material. -/
theorem c5_failure_cases (secret header payload : List Char) :
    (parse_signature header = none → verify_signature secret header payload = false) ∧
    (∀ t s, parse_signature header = some (t, s) → hexDecode s = none →
      verify_signature secret header payload = false) ∧
    (∀ t s bs, parse_signature header = some (t, s) → hexDecode s = some bs →
      bs.length ≠ 32 → verify_signature secret header payload = false) := by
  refine ⟨fun hp => verify_signature_parse_none secret payload header hp, ?_, ?_⟩
  · intro t s hp hd
    rw [verify_signature_parse_some secret payload header t s hp, hd]
  · intro t s bs hp hd hlen
    rw [verify_signature_parse_some secret payload header t s hp, hd]
    show (if (hmacSha256 (strBytes secret) (strBytes (t ++ '.' :: payload))).length
        ≠ bs.length then false
      else ctEq (hmacSha256 (strBytes secret) (strBytes (t ++ '.' :: payload))) bs) = false
    rw [if_pos (by rw [hmacSha256_length]; exact fun hh => hlen hh.symm)]

/-- C5 witness: a header with no `=` pairs, one with non-hex `v1`, and one
with a 2-byte `v1`, all rejected. -/
theorem c5_witness :
    verify_signature "k".data "xyz".data "b".data = false ∧
    verify_signature "k".data "t=1,v1=zz".data "b".data = false ∧
    verify_signature "k".data "t=1,v1=abcd".data "b".data = false :=
  ⟨(c5_failure_cases "k".data "xyz".data "b".data).1 (by decide),
   (c5_failure_cases "k".data "t=1,v1=zz".data "b".data).2.1
     "1".data "zz".data (by decide) (by decide),
   (c5_failure_cases "k".data "t=1,v1=abcd".data "b".data).2.2
     "1".data "abcd".data [171, 205] (by decide) (by decide) (by decide)⟩

/-- C6: when verification returns `false`, `process` returns the
authentication error (without the body's JSON influencing the outcome);
when verification succeeds but deserialization fails, `process` returns
the parse error; the two errors are distinct. -/
theorem c6_error_separation (secret : List Char) (headers : Headers) (payload : List Char) :
    (verify secret headers payload = some false →
      process secret headers payload = .error .authFailed) ∧
    (verify secret headers payload = some true → from_str payload = none →
      process secret headers payload = .error .parseFailed) ∧
    ProcessError.authFailed ≠ ProcessError.parseFailed := by
  refine ⟨?_, ?_, by decide⟩
  · intro hv
    unfold process
    rw [hv]
    rfl
  · intro hv hp
    unfold process
    rw [hv, hp]
    rfl

/-- C6 witness: a wrong signature gives the authentication error; a valid
signature over a non-JSON body gives the parse error. -/
theorem c6_witness :
    process "sec".data [("stripe-signature".data, strBytes "t=1,v1=00".data)]
      "notjson".data = .error .authFailed ∧
    process "sec".data
      [("stripe-signature".data,
        strBytes "t=1,v1=917012c5b5b2c811d190b8c4a80433359a96f768d65f1f95847374ebe97df510".data)]
      "notjson".data = .error .parseFailed :=
  ⟨(c6_error_separation "sec".data _ "notjson".data).1 (by decide),
   (c6_error_separation "sec".data _ "notjson".data).2.1 (by decide) (by rfl)⟩

/-- C7: for every successfully verified and deserialized body, `process`
classifies by exact string match on the `type` field:
`checkout.session.completed` and `customer.subscription.deleted` map to
their variants and anything else maps to `Unknown`, never an error. -/
theorem c7_classification (secret : List Char) (headers : Headers) (payload : List Char)
    (req : StripeEventRequest)
    (hv : verify secret headers payload = some true)
    (hp : from_str payload = some req) :
    (req.type = "checkout.session.completed".data →
      process secret headers payload = .ok (.CheckoutSessionCompleted req.data.object)) ∧
    (req.type = "customer.subscription.deleted".data →
      process secret headers payload = .ok (.CustomerSubscriptionDeleted req.data.object)) ∧
    (req.type ≠ "checkout.session.completed".data →
      req.type ≠ "customer.subscription.deleted".data →
      process secret headers payload = .ok (.Unknown req.data.object)) := by
  rw [process_verified secret headers payload req hv hp]
  refine ⟨?_, ?_, ?_⟩
  · intro h
    rw [if_pos h]
  · intro h
    rw [if_neg (by rw [h]; decide), if_pos h]
  · intro h1 h2
    rw [if_neg h1, if_neg h2]

/-- C7 witness: a signed body of type `checkout.session.completed`. -/
theorem c7_witness :
    (("checkout.session.completed".data : List Char) = "checkout.session.completed".data →
      process "sec".data
        [("stripe-signature".data,
          strBytes "t=1,v1=30a4818b6c7bbdfad69260f591c4fc17f3d6d1b972412e6b39326eaee08dd08f".data)]
        "\x7b\"id\":\"i\",\"type\":\"checkout.session.completed\",\"data\":\x7b\"object\":null\x7d\x7d".data
        = .ok (.CheckoutSessionCompleted Json.null)) ∧
    (("checkout.session.completed".data : List Char) = "customer.subscription.deleted".data →
      process "sec".data
        [("stripe-signature".data,
          strBytes "t=1,v1=30a4818b6c7bbdfad69260f591c4fc17f3d6d1b972412e6b39326eaee08dd08f".data)]
        "\x7b\"id\":\"i\",\"type\":\"checkout.session.completed\",\"data\":\x7b\"object\":null\x7d\x7d".data
        = .ok (.CustomerSubscriptionDeleted Json.null)) ∧
    (("checkout.session.completed".data : List Char) ≠ "checkout.session.completed".data →
      ("checkout.session.completed".data : List Char) ≠ "customer.subscription.deleted".data →
      process "sec".data
        [("stripe-signature".data,
          strBytes "t=1,v1=30a4818b6c7bbdfad69260f591c4fc17f3d6d1b972412e6b39326eaee08dd08f".data)]
        "\x7b\"id\":\"i\",\"type\":\"checkout.session.completed\",\"data\":\x7b\"object\":null\x7d\x7d".data
        = .ok (.Unknown Json.null)) :=
  c7_classification "sec".data _ _
    ⟨"i".data, "checkout.session.completed".data, ⟨Json.null⟩⟩ (by decide) (by rfl)

/-- C8: for every secret, header map, and body, `process` returns a normal
result: `Ok` with an event, the authentication error, or the parse error —
the model is a total function, mirroring the source where every fallible
step is funnelled into a `Result` or `Option` and nothing panics. -/
theorem c8_total (secret : List Char) (headers : Headers) (payload : List Char) :
    process secret headers payload = .error .authFailed ∨
    process secret headers payload = .error .parseFailed ∨
    ∃ ev, process secret headers payload = .ok ev := by
  cases hp : process secret headers payload with
  | error e =>
    cases e with
    | authFailed => exact Or.inl rfl
    | parseFailed => exact Or.inr (Or.inl rfl)
  | ok ev => exact Or.inr (Or.inr ⟨ev, rfl⟩)

/-- C9: on 32-byte inputs the comparison returns `true` exactly when the
byte sequences are equal, and its operation count is the constant 32 —
independent of where (or whether) the inputs differ, i.e. no
short-circuit on mismatch. -/
theorem c9_constant_time (xs ys : List Nat) (h1 : xs.length = 32) (h2 : ys.length = 32) :
    (ctEq xs ys = true ↔ xs = ys) ∧ ctEqCost xs ys = 32 := by
  refine ⟨ctEq_eq_true_iff xs ys (h1.trans h2.symm), ?_⟩
  rw [ctEqCost_eq, h1, h2]
  omega

/-- C9 witness: two 32-byte sequences differing in the last byte. -/
theorem c9_witness :
    (ctEq (List.replicate 32 0) (List.replicate 31 0 ++ [1]) = true ↔
      List.replicate 32 0 = List.replicate 31 0 ++ [1]) ∧
    ctEqCost (List.replicate 32 0) (List.replicate 31 0 ++ [1]) = 32 :=
  c9_constant_time (List.replicate 32 0) (List.replicate 31 0 ++ [1])
    (by decide) (by decide)

/-- C10: when the `Stripe-Signature` header is present but its value is not
visible ASCII, `verify` returns `none` — the same signal as an absent
header — and `process` skips signature verification, deserializing and
classifying the body as if authentication had succeeded. -/
theorem c10_unparsable_header (secret payload : List Char) (headers : Headers)
    (v : List Nat)
    (hget : headerGet headers "Stripe-Signature".data = some v)
    (hstr : headerToStr v = none) :
    verify secret headers payload = none ∧
    process secret headers payload =
      (match from_str payload with
       | none => .error .parseFailed
       | some req =>
         if req.type = "checkout.session.completed".data then
           .ok (.CheckoutSessionCompleted req.data.object)
         else if req.type = "customer.subscription.deleted".data then
           .ok (.CustomerSubscriptionDeleted req.data.object)
         else .ok (.Unknown req.data.object)) := by
  have hv : verify secret headers payload = none := by
    unfold verify
    rw [hget]
    show (match headerToStr v with
      | none => none
      | some s => some (verify_signature secret s payload)) = none
    rw [hstr]
  refine ⟨hv, ?_⟩
  unfold process
  rw [hv]
  rfl

/-- C10 witness: a `Stripe-Signature` value containing byte 200. -/
theorem c10_witness :
    verify "sec".data [("Stripe-Signature".data, [200])] "\x7b\"id\":\"a\",\"type\":\"x\",\"data\":\x7b\"object\":true\x7d\x7d".data = none ∧
    process "sec".data [("Stripe-Signature".data, [200])]
      "\x7b\"id\":\"a\",\"type\":\"x\",\"data\":\x7b\"object\":true\x7d\x7d".data =
      (match from_str "\x7b\"id\":\"a\",\"type\":\"x\",\"data\":\x7b\"object\":true\x7d\x7d".data with
       | none => .error .parseFailed
       | some req =>
         if req.type = "checkout.session.completed".data then
           .ok (.CheckoutSessionCompleted req.data.object)
         else if req.type = "customer.subscription.deleted".data then
           .ok (.CustomerSubscriptionDeleted req.data.object)
         else .ok (.Unknown req.data.object)) :=
  c10_unparsable_header "sec".data _ _ [200] (by decide) (by decide)

end Stripe

